import Mathlib

/-!
Verification of the `flow_native` lowering backend
(`src/unsupported/juno/crates/flow_native/src/main.rs`).

The Rust program walks a resolved JavaScript AST and emits C++ source text.
We shallowly embed the compiler: the AST node kinds consumed by `gen_expr` /
`gen_stmt`, the semantic context queried during lowering (`node_scope`,
`ident_decl`, `decl`, `scope`, `all_scopes`), and the emission functions
themselves, translated line by line from the source.  Output is an
append-only string; the various `panic!` / `unimplemented!` / `todo!` /
`unwrap` / `node_cast!` failure paths become the error case of a
writer-with-error monad `GenM` that, like the real process (whose `BufWriter`
is flushed while unwinding), keeps the output produced before the failure.
-/

namespace FlowNative

/-- Result of running an emission computation: `ok out a` means the text
`out` was appended and the value `a` produced; `err out msg` means the text
`out` was appended before the pass died fatally with panic message `msg`. -/
inductive GenM (α : Type) where
  | ok (out : String) (val : α)
  | err (out : String) (msg : String)
  deriving DecidableEq, Repr

/-- Prefix the accumulated output of a computation with `o`. -/
def GenM.prepend (o : String) : GenM α → GenM α
  | .ok out a => .ok (o ++ out) a
  | .err out msg => .err (o ++ out) msg

/-- Sequencing: the second computation's output is appended after the
first's; a fatal error keeps the output emitted so far. -/
def GenM.bind : GenM α → (α → GenM β) → GenM β
  | .ok out a, f => (f a).prepend out
  | .err out msg, _ => .err out msg

instance : Monad GenM where
  pure a := .ok "" a
  bind := GenM.bind

/-- Models `Writer::write_ascii` / the `out!` macro: append text to the
output stream.  (The `debug_assert!(buf.is_ascii())` in the source is not a
control-flow effect in release builds; ASCII-ness is treated as a property
to be checked, see the claim about output encoding.) -/
def emit (s : String) : GenM Unit := .ok s ()

/-- Models `panic!` / `unimplemented!` / `todo!` / failed `unwrap` /
failed `node_cast!`: the pass aborts fatally; output already emitted
remains (it has already been handed to the writer). -/
def fatal (msg : String) : GenM α := .err "" msg

@[simp] theorem GenM.prepend_ok (o out : String) (a : α) :
    GenM.prepend o (.ok out a) = .ok (o ++ out) a := rfl

@[simp] theorem GenM.prepend_err (o out msg : String) :
    GenM.prepend o (.err out msg : GenM α) = .err (o ++ out) msg := rfl

@[simp] theorem GenM.bind_ok (out : String) (a : α) (f : α → GenM β) :
    GenM.bind (.ok out a) f = (f a).prepend out := rfl

@[simp] theorem GenM.bind_err (out msg : String) (f : α → GenM β) :
    GenM.bind (.err out msg) f = .err out msg := rfl

@[simp] theorem GenM.monadBind_eq (x : GenM α) (f : α → GenM β) :
    x >>= f = GenM.bind x f := rfl

@[simp] theorem GenM.pure_eq (a : α) : (pure a : GenM α) = .ok "" a := rfl

@[simp] theorem GenM.prepend_prepend (o p : String) (x : GenM α) :
    GenM.prepend o (GenM.prepend p x) = GenM.prepend (o ++ p) x := by
  cases x <;> simp [GenM.prepend, String.append_assoc]

theorem GenM.prepend_empty (x : GenM α) : GenM.prepend "" x = x := by
  cases x <;> simp [GenM.prepend]

theorem GenM.bind_assoc (x : GenM α) (f : α → GenM β) (g : β → GenM γ) :
    GenM.bind (GenM.bind x f) g = GenM.bind x fun a => GenM.bind (f a) g := by
  cases x with
  | err out msg => simp [GenM.bind]
  | ok out a =>
    simp only [GenM.bind]
    cases f a with
    | err o2 m2 => simp [GenM.prepend, GenM.bind]
    | ok o2 a2 =>
      simp only [GenM.prepend, GenM.bind]
      cases g a2 <;> simp [GenM.prepend, String.append_assoc]

/-- Concatenate a list of output fragments (in order). -/
def strConcat (l : List String) : String := l.foldr (fun a b => a ++ b) ""

@[simp] theorem strConcat_nil : strConcat [] = "" := rfl

@[simp] theorem strConcat_cons (a : String) (l : List String) :
    strConcat (a :: l) = a ++ strConcat l := rfl

theorem strConcat_append (l₁ l₂ : List String) :
    strConcat (l₁ ++ l₂) = strConcat l₁ ++ strConcat l₂ := by
  induction l₁ with
  | nil => simp
  | cons a l ih => simp [ih, String.append_assoc]

/-- A `for x in iterator { … }` loop of the source, running the body on
each element in order. -/
def forEach : List α → (α → GenM Unit) → GenM Unit
  | [], _ => pure ()
  | a :: l, f => do
      f a
      forEach l f

@[simp] theorem forEach_nil (f : α → GenM Unit) : forEach [] f = .ok "" () := rfl

@[simp] theorem forEach_cons (a : α) (l : List α) (f : α → GenM Unit) :
    forEach (a :: l) f = GenM.bind (f a) (fun _ => forEach l f) := rfl

/-- Running a loop whose body only emits text appends the concatenation of
the per-element fragments (models the `for … { out!(…) }` loops). -/
theorem forEach_emit_ok {α : Type} (l : List α) (body : α → GenM Unit)
    (g : α → String) (h : ∀ a ∈ l, body a = .ok (g a) ()) :
    forEach l body = GenM.ok (strConcat (l.map g)) () := by
  induction l with
  | nil => rfl
  | cons a l ih =>
    have ha := h a (by simp)
    have hl : ∀ x ∈ l, body x = .ok (g x) () := fun x hx => h x (by simp [hx])
    simp [ha, ih hl]

/-! ## Semantic context (the `juno::sema::SemContext` facts consumed here)

`SemContext` supplies, read-only: per scope id its parent / declaration list
/ depth (`sem.scope`, `sem.all_scopes`), per declaration id its kind and
owning scope (`sem.decl`), per node its attached lexical scope
(`sem.node_scope`) and, for identifier nodes, its resolution
(`sem.ident_decl`).  Out-of-range ids are modelled totally via default
values (the Rust index panic on a malformed context is not exercised by any
claim). -/

/-- The `juno::sema::DeclKind` variants distinguished by the backend:
`GlobalProperty` / `UndeclaredGlobalProperty` select the global-object
path in `gen_expr`; every other kind is an ordinary scope-local slot. -/
inductive DeclKind where
  | var
  | parameter
  | es5Catch
  | letDecl
  | constDecl
  | scopedFunction
  | functionExprName
  | globalProperty
  | undeclaredGlobalProperty
  deriving DecidableEq, Repr

/-- Embeds `juno::sema::Resolution` as matched by `gen_expr`: a resolved
declaration, or anything else (treated as unresolved). -/
inductive Resolution where
  | decl (d : Nat)
  | unresolvable
  deriving DecidableEq, Repr

/-- One lexical scope of the resolver's scope forest: optional parent scope
id, owned declaration ids in declaration order, and nesting depth. -/
structure ScopeInfo where
  parentScope : Option Nat := none
  decls : List Nat := []
  depth : Nat := 0
  deriving DecidableEq, Repr

instance : Inhabited ScopeInfo := ⟨{}⟩

/-- One declaration: its kind and its owning scope id. -/
structure DeclInfo where
  kind : DeclKind := .var
  scope : Nat := 0
  deriving DecidableEq, Repr

instance : Inhabited DeclInfo := ⟨{}⟩

/-- The read-only semantic context consulted during lowering. -/
structure SemContext where
  scopes : List ScopeInfo
  declTable : List DeclInfo
  nodeScopeMap : Nat → Option Nat
  identDeclMap : Nat → Option Resolution

/-- Lookup `sem.scope(id)` — scope info by id. -/
def SemContext.scope (sem : SemContext) (i : Nat) : ScopeInfo :=
  sem.scopes.getD i default

/-- Lookup `sem.decl(id)` — declaration info by id. -/
def SemContext.decl (sem : SemContext) (d : Nat) : DeclInfo :=
  sem.declTable.getD d default

/-- Lookup `sem.node_scope(node)` — the lexical scope the resolver attached to a
syntax node, if any. -/
def SemContext.nodeScope (sem : SemContext) (n : Nat) : Option Nat :=
  sem.nodeScopeMap n

/-- Lookup `sem.ident_decl(node)` — the resolution of an identifier node. -/
def SemContext.identDecl (sem : SemContext) (n : Nat) : Option Resolution :=
  sem.identDeclMap n

/-! ## AST

The node kinds consumed by `gen_expr` / `gen_stmt`.  Nodes whose identity
is consulted by the semantic context (`node_scope` on blocks, `for`
statements, catch clauses, the module; `ident_decl` on identifiers) carry
their node id.  `otherExpr` / `otherStmt` stand for every node kind hitting
the `unimplemented!` catch-all arms, carrying the variant name used in the
panic message. -/

/-- Embeds `AssignmentExpressionOperator` (subset incl. every arm the backend
distinguishes; all remaining source variants behave like the catch-all and
are represented by the unsupported operators listed here). -/
inductive AssignOp where
  | assign
  | plusAssign
  | minusAssign
  | modAssign
  | divAssign
  | multAssign
  | lshiftAssign
  | rshiftAssign
  | rshift3Assign
  | bitAndAssign
  | bitOrAssign
  | bitXorAssign
  | logAndAssign
  | logOrAssign
  | expAssign
  deriving DecidableEq, Repr

/-- Rendering `AssignmentExpressionOperator::as_str`. -/
def AssignOp.asStr : AssignOp → String
  | .assign => "="
  | .plusAssign => "+="
  | .minusAssign => "-="
  | .modAssign => "%="
  | .divAssign => "/="
  | .multAssign => "*="
  | .lshiftAssign => "<<="
  | .rshiftAssign => ">>="
  | .rshift3Assign => ">>>="
  | .bitAndAssign => "&="
  | .bitOrAssign => "|="
  | .bitXorAssign => "^="
  | .logAndAssign => "&&="
  | .logOrAssign => "||="
  | .expAssign => "**="

/-- Embeds `BinaryExpressionOperator`. -/
inductive BinOp where
  | looseEquals
  | looseNotEquals
  | strictEquals
  | strictNotEquals
  | less
  | lessEquals
  | greater
  | greaterEquals
  | lshift
  | rshift
  | rshift3
  | plus
  | minus
  | mult
  | div
  | mod
  | bitAnd
  | bitOr
  | bitXor
  | exponent
  | inOp
  | instanceOf
  deriving DecidableEq, Repr

/-- Rendering `BinaryExpressionOperator::as_str`. -/
def BinOp.asStr : BinOp → String
  | .looseEquals => "=="
  | .looseNotEquals => "!="
  | .strictEquals => "==="
  | .strictNotEquals => "!=="
  | .less => "<"
  | .lessEquals => "<="
  | .greater => ">"
  | .greaterEquals => ">="
  | .lshift => "<<"
  | .rshift => ">>"
  | .rshift3 => ">>>"
  | .plus => "+"
  | .minus => "-"
  | .mult => "*"
  | .div => "/"
  | .mod => "%"
  | .bitAnd => "&"
  | .bitOr => "|"
  | .bitXor => "^"
  | .exponent => "**"
  | .inOp => "in"
  | .instanceOf => "instanceof"

/-- Embeds `UpdateExpressionOperator`. -/
inductive UpdateOp where
  | increment
  | decrement
  deriving DecidableEq, Repr

/-- Rendering `UpdateExpressionOperator::as_str`. -/
def UpdateOp.asStr : UpdateOp → String
  | .increment => "++"
  | .decrement => "--"

mutual

inductive Expr where
  | functionExpr (params : List Expr) (body : Stmt)
  | objectExpr (properties : List ObjProp)
  | arrayExpr (elements : List Expr)
  | memberExpr (object : Expr) (property : Expr) (computed : Bool)
  | callExpr (callee : Expr) (arguments : List Expr)
  | identExpr (nodeId : Nat) (name : String)
  | assignExpr (operator : AssignOp) (left : Expr) (right : Expr)
  | binExpr (operator : BinOp) (left : Expr) (right : Expr)
  | updateExpr (operator : UpdateOp) (prefixFlag : Bool) (argument : Expr)
  | numLit (value : String)
  | boolLit (value : Bool)
  | strLit (value : String)
  | otherExpr (variant : String)

/-- One `Property` node of an object literal. -/
inductive ObjProp where
  | mk (key : Expr) (value : Expr) (computed : Bool)

inductive Stmt where
  | blockStmt (nodeId : Nat) (body : List Stmt)
  | varDeclStmt (declarations : List Stmt)
  | varDeclarator (initOpt : Option Expr) (ident : Expr)
  | funcDecl (identOpt : Option Expr) (params : List Expr) (body : Stmt)
  | returnStmt (argument : Option Expr)
  | exprStmt (expression : Expr)
  | whileStmt (test : Expr) (body : Stmt)
  | forStmt (nodeId : Nat) (forInit : Option Stmt) (test : Option Expr)
      (update : Option Expr) (body : Stmt)
  | ifStmt (test : Expr) (consequent : Stmt) (alternate : Option Stmt)
  | tryStmt (block : Stmt) (handler : Option Stmt)
  | catchClause (nodeId : Nat) (param : Option Expr) (body : Stmt)
  | throwStmt (argument : Expr)
  | otherStmt (variant : String)

end

/-- The `Module` node handed to `gen_program` (its node id, for the
`node_scope` lookup of the root scope, and the top-level statements). -/
structure Program where
  nodeId : Nat
  body : List Stmt

/-! ## Rust `format!("{:?}", s)` on strings

`gen_expr` renders string-literal payloads with the `Debug` formatter.
Modelled from the Rust standard library (external to this repository):
`str`'s `Debug` impl wraps the text in double quotes and escapes each char
with `char::escape_debug` (double quotes escaped, single quotes not):
`\0 \t \r \n \\ \"` get two-character escapes, other printable characters
are kept verbatim, non-printable ones become `\u{…}` escapes.  Crucially,
printable characters are kept verbatim whether or not they are ASCII.
`is_printable` consults the full Unicode tables; the model below is exact
on the Basic Latin and Latin-1 ranges exercised here (C0/C1 controls and
DEL non-printable, everything else printable). -/

/-- One lowercase hex digit. -/
def hexDigit (n : Nat) : Char :=
  if n < 10 then Char.ofNat (48 + n) else Char.ofNat (87 + n)

/-- Lowercase hex rendering of a `Nat` (Rust `{:x}`). -/
def natToHex (n : Nat) : String :=
  if n < 16 then String.singleton (hexDigit n)
  else natToHex (n / 16) ++ String.singleton (hexDigit (n % 16))
  termination_by n
  decreasing_by exact Nat.div_lt_self (by omega) (by omega)

/-- Unicode printability as consulted by `char::escape_debug`, modelled on
the code-point ranges exercised here. -/
def rustIsPrintable (c : Char) : Bool :=
  0x20 ≤ c.toNat && c.toNat ≠ 0x7f && !(0x80 ≤ c.toNat && c.toNat ≤ 0x9f)

/-- Models `char::escape_debug` with double quotes escaped (as used for `str`). -/
def escapeDebugChar (c : Char) : String :=
  if c = Char.ofNat 0 then "\\0"
  else if c = '\t' then "\\t"
  else if c = '\r' then "\\r"
  else if c = '\n' then "\\n"
  else if c = '\\' then "\\\\"
  else if c = '\"' then "\\\""
  else if rustIsPrintable c then String.singleton c
  else "\\u\x7b" ++ natToHex c.toNat ++ "\x7d"

/-- Rust `format!("{:?}", s)` for a string `s`. -/
def rustDebugString (s : String) : String :=
  "\"" ++ strConcat (s.toList.map escapeDebugChar) ++ "\""

/-! ## The compiler

Translated from `impl<W: Write> Compiler<W>`, with the output stream and
the fatal-error paths in `GenM`.  (`ValueId` / `num_values` / `new_value`
exist in the source but no emission path ever calls `new_value`, so the
counter is dead state and is omitted.)  Literal `{` / `}` bytes of the
generated C++ are written `\x7b` / `\x7d`. -/

/-- Translation of `Compiler::param_list_for_arg_count`. -/
def paramListForArgCount (count : Nat) : GenM Unit := do
  emit "void *parent_scope"
  forEach (List.range count) (fun i => emit (", FNValue param" ++ toString i))

/-- The body of `gen_context`'s definition loop, for one `(id, scope)`
pair: the struct header, the parent-link field if the scope has a parent,
one default-initialised `FNValue` field per owned declaration, the
closing brace. -/
def genScopeStruct (p : Nat × ScopeInfo) : GenM Unit := do
  emit ("struct Scope" ++ toString p.1 ++ "\x7b\n")
  (match p.2.parentScope with
   | some parent => emit ("Scope" ++ toString parent ++ " *parent;\n")
   | none => pure ())
  forEach p.2.decls
    (fun d => emit ("FNValue var" ++ toString d ++ "=FNValue::encodeUndefined();\n"))
  emit "\x7d;\n"

/-- Translation of `Compiler::gen_context`: forward-declare every scope struct, then
define each one (parent-link field when the scope has a parent; one
`FNValue` field per owned declaration, initialised to `encodeUndefined`). -/
def genContext (sem : SemContext) : GenM Unit := do
  forEach (List.range sem.scopes.length)
    (fun i => emit ("struct Scope" ++ toString i ++ ";\n"))
  forEach sem.scopes.enum genScopeStruct

/-- Translation of `Compiler::init_scope`: if the resolver attached a scope to the node,
allocate a fresh record for it, link its parent field to the current scope
and return it as the new current scope; otherwise pass the current scope
through unchanged. -/
def initScope (sem : SemContext) (nodeId : Nat) (scope : Nat) : GenM Nat :=
  match sem.nodeScope nodeId with
  | some newScope => do
      emit ("Scope" ++ toString newScope ++ " *scope" ++ toString newScope
            ++ " = new Scope" ++ toString newScope ++ "();\n")
      emit ("scope" ++ toString newScope ++ "->parent = scope" ++ toString scope ++ ";\n")
      pure newScope
  | none => pure scope

/-- The `type_str` table of `gen_expr`'s assignment arm: empty for plain
assignment, the `Number` by-reference accessor for the five compound
arithmetic operators, a fatal `panic!("Unsupported assignment")` for every
other compound operator. -/
def assignTypeStr : AssignOp → GenM String
  | .assign => pure ""
  | .plusAssign | .minusAssign | .modAssign | .divAssign | .multAssign =>
      pure ".getNumberRef()"
  | _ => fatal "Unsupported assignment"

/-- The `op_str` table of `gen_expr`'s binary arm: the strict-equality
variants map to the native `==` / `!=`; every other operator renders as its
own source spelling. -/
def binOpStr : BinOp → String
  | .strictEquals => "=="
  | .strictNotEquals => "!="
  | op => op.asStr

/-- The `res_type` table of `gen_expr`'s binary arm: relational/equality
operators re-encode as `Bool`, arithmetic/shift operators as `Number`,
anything else is a fatal `panic!("Unsupported operator")`. -/
def binResType : BinOp → GenM String
  | .looseEquals | .strictEquals | .strictNotEquals
  | .less | .lessEquals | .greater | .greaterEquals => pure "Bool"
  | .lshift | .rshift | .plus | .minus | .mult | .div | .mod => pure "Number"
  | _ => fatal "Unsupported operator"

mutual

/-- Translation of `Compiler::gen_member_prop`: computed properties become `->getByVal(…)`
on the lowered key; named properties must be identifier nodes and become
`->props["name"]`. -/
def genMemberProp (sem : SemContext) (property : Expr) (computed : Bool)
    (scope : Nat) : GenM Unit :=
  if computed then do
    emit "->getByVal("
    genExpr sem property scope
    emit ")"
  else
    match property with
    | .identExpr _ name => emit ("->props[\"" ++ name ++ "\"]")
    | _ => fatal "node_cast failed: expected Identifier"
  termination_by 2 * sizeOf property + (if computed then 2 else 0)
  decreasing_by
    all_goals simp_wf
    all_goals try split
    all_goals omega

/-- Translation of `Compiler::gen_function_exp`: an encoded closure pairing a lambda
(environment pointer plus one `FNValue` parameter per formal; the body
re-binds the environment as the enclosing scope, allocates the function
scope as its child, copies the formals into their slots and lowers the body
statements) with the current scope captured at creation.  (In the source
the `node_scope` lookup on the body precedes the `BlockStatement` cast;
here the cast comes first because the node id lives on the block
constructor.  The two orders only differ on malformed trees.) -/
def genFunctionExp (sem : SemContext) (params : List Expr) (block : Stmt)
    (scope : Nat) : GenM Unit := do
  emit "FNValue::encodeClosure(new FNClosure\x7b(void(*)(void))(+[]("
  paramListForArgCount params.length
  emit ")\x7b"
  match block with
  | .blockStmt blockId body =>
    (match sem.nodeScope blockId with
     | some fnScope => do
        emit ("\nScope" ++ toString scope ++ " *scope" ++ toString scope
              ++ " = (Scope" ++ toString scope ++ "*)parent_scope;")
        emit ("Scope" ++ toString fnScope ++ " *scope" ++ toString fnScope
              ++ " = new Scope" ++ toString fnScope ++ "();\n")
        emit ("scope" ++ toString fnScope ++ "->parent = scope" ++ toString scope ++ ";\n")
        genParamBinds sem params 0 fnScope
        genSeq sem body ";\n" fnScope
        emit ("\x7d), scope" ++ toString scope ++ "\x7d)")
     | none => fatal "unwrap of None: function body has no scope")
  | _ => fatal "node_cast failed: expected BlockStatement"
  termination_by 2 * (sizeOf params + sizeOf block)
  decreasing_by
    all_goals simp_wf
    all_goals try split
    all_goals omega

/-- The `for (i, param) in params.iter().enumerate()` loop of
`gen_function_exp`: each formal's storage location is lowered and assigned
the corresponding positional `param{i}`. -/
def genParamBinds (sem : SemContext) (params : List Expr) (i : Nat)
    (scope : Nat) : GenM Unit :=
  match params with
  | [] => pure ()
  | p :: rest => do
      genExpr sem p scope
      emit ("=param" ++ toString i ++ ";\n")
      genParamBinds sem rest (i + 1) scope
  termination_by 2 * sizeOf params
  decreasing_by
    all_goals simp_wf
    all_goals try split
    all_goals omega

/-- Translation of `Compiler::gen_expr`. -/
def genExpr (sem : SemContext) (node : Expr) (scope : Nat) : GenM Unit :=
  match node with
  | .functionExpr params body => genFunctionExp sem params body scope
  | .objectExpr properties => do
      emit "(\x7bFNObject *tmp=new FNObject();\n"
      genProps sem properties scope
      emit "FNValue::encodeObject(tmp);\x7d)"
  | .arrayExpr elements => do
      emit "FNValue::encodeObject(new FNArray(\x7b"
      genArrayElems sem elements scope
      emit "\x7d))"
  | .memberExpr object property computed => do
      genExpr sem object scope
      emit ".getObject()"
      genMemberProp sem property computed scope
  | .callExpr callee arguments => do
      emit "(\x7bFNClosure *tmp="
      genExpr sem callee scope
      emit ".getClosure();\nreinterpret_cast<FNValue (*)("
      paramListForArgCount arguments.length
      emit ")>(tmp->func)("
      emit "tmp->env"
      genCallArgs sem arguments scope
      emit ");\x7d)"
  | .identExpr nodeId name =>
      (match sem.identDecl nodeId with
       | some (.decl declId) =>
          (match (sem.decl declId).kind with
           | .undeclaredGlobalProperty | .globalProperty => do
              emit "global()"
              genMemberProp sem (.identExpr nodeId name) false scope
           | _ =>
              -- `let diff: u32 = depth(scope) - depth(decl.scope)` is a
              -- checked machine subtraction: it panics on underflow.
              if (sem.scope (sem.decl declId).scope).depth ≤ (sem.scope scope).depth then do
                emit ("scope" ++ toString scope ++ "->")
                forEach
                  (List.range ((sem.scope scope).depth
                    - (sem.scope (sem.decl declId).scope).depth))
                  (fun _ => emit "parent->")
                emit ("var" ++ toString declId)
              else fatal "attempt to subtract with overflow")
       | _ => fatal "Unresolved variable")
  | .assignExpr operator left right => do
      let typeStr ← assignTypeStr operator
      genExpr sem left scope
      emit (typeStr ++ operator.asStr)
      genExpr sem right scope
      emit typeStr
  | .binExpr operator left right => do
      let resType ← binResType operator
      emit ("FNValue::encode" ++ resType ++ "(")
      genExpr sem left scope
      emit (".getNumber()" ++ binOpStr operator)
      genExpr sem right scope
      emit ".getNumber())"
  | .updateExpr operator prefixFlag argument => do
      emit "FNValue::encodeNumber("
      (if prefixFlag then emit operator.asStr else pure ())
      genExpr sem argument scope
      emit ".getNumberRef()"
      (if !prefixFlag then emit operator.asStr else pure ())
      emit ")"
  | .numLit value => emit ("FNValue::encodeNumber(" ++ value ++ ")")
  | .boolLit value => emit ("FNValue::encodeBool(" ++ (if value then "true" else "false") ++ ")")
  | .strLit value =>
      emit ("FNValue::encodeString(new FNString\x7b" ++ rustDebugString value ++ "\x7d)")
  | .otherExpr variant => fatal ("Unimplemented expression: " ++ variant)
  termination_by 2 * sizeOf node + 1
  decreasing_by
    all_goals simp_wf
    all_goals try split
    all_goals omega

/-- The object-literal property loop of `gen_expr`. -/
def genProps (sem : SemContext) (properties : List ObjProp) (scope : Nat) : GenM Unit :=
  match properties with
  | [] => pure ()
  | .mk key value computed :: rest => do
      emit "tmp"
      genMemberProp sem key computed scope
      emit "="
      genExpr sem value scope
      emit ";\n"
      genProps sem rest scope
  termination_by 2 * sizeOf properties
  decreasing_by
    all_goals simp_wf
    all_goals try split
    all_goals omega

/-- The array-literal element loop of `gen_expr`. -/
def genArrayElems (sem : SemContext) (elements : List Expr) (scope : Nat) : GenM Unit :=
  match elements with
  | [] => pure ()
  | e :: rest => do
      genExpr sem e scope
      emit ","
      genArrayElems sem rest scope
  termination_by 2 * sizeOf elements
  decreasing_by
    all_goals simp_wf
    all_goals try split
    all_goals omega

/-- The call-argument loop of `gen_expr`. -/
def genCallArgs (sem : SemContext) (arguments : List Expr) (scope : Nat) : GenM Unit :=
  match arguments with
  | [] => pure ()
  | a :: rest => do
      emit ", "
      genExpr sem a scope
      genCallArgs sem rest scope
  termination_by 2 * sizeOf arguments
  decreasing_by
    all_goals simp_wf
    all_goals try split
    all_goals omega

/-- An `if let Some(stmt) = … { gen_stmt(stmt, scope) }` site (the `for`
initialiser and the `else` branch of `if`). -/
def genOptStmt (sem : SemContext) (o : Option Stmt) (scope : Nat) : GenM Unit :=
  match o with
  | some s => genStmt sem s scope
  | none => pure ()
  termination_by 2 * sizeOf o
  decreasing_by
    all_goals simp_wf
    all_goals try split
    all_goals omega

/-- The optional `for`-test clause: lowered test followed by `.getBool()`. -/
def genForTest (sem : SemContext) (o : Option Expr) (scope : Nat) : GenM Unit :=
  match o with
  | some t => do
      genExpr sem t scope
      emit ".getBool()"
  | none => pure ()
  termination_by 2 * sizeOf o
  decreasing_by
    all_goals simp_wf
    all_goals try split
    all_goals omega

/-- The optional `for`-update clause. -/
def genForUpdate (sem : SemContext) (o : Option Expr) (scope : Nat) : GenM Unit :=
  match o with
  | some u => genExpr sem u scope
  | none => pure ()
  termination_by 2 * sizeOf o
  decreasing_by
    all_goals simp_wf
    all_goals try split
    all_goals omega

/-- The optional catch-parameter binding: `param = ex;`. -/
def genCatchParam (sem : SemContext) (o : Option Expr) (scope : Nat) : GenM Unit :=
  match o with
  | some p => do
      genExpr sem p scope
      emit "=ex;"
  | none => pure ()
  termination_by 2 * sizeOf o
  decreasing_by
    all_goals simp_wf
    all_goals try split
    all_goals omega

/-- The handler part of `gen_stmt`'s `TryStatement` arm: a missing handler
(`finally`-only `try`) is the `todo!` path; a present handler is cast to a
`CatchClause`, its scope entered via `init_scope`, its body cast to a
block, the parameter bound to the caught value, and the handler statements
lowered with `;` separators. -/
def genCatchHandler (sem : SemContext) (handler : Option Stmt) (scope : Nat) : GenM Unit :=
  match handler with
  | none => fatal "finally is not implemented"
  | some (.catchClause nodeId param (.blockStmt _blockId body)) => do
      let newScope ← initScope sem nodeId scope
      genCatchParam sem param newScope
      genSeq sem body ";" newScope
      emit "\x7d"
  | some (.catchClause nodeId _ _) => do
      let _ ← initScope sem nodeId scope
      fatal "node_cast failed: expected BlockStatement"
  | some _ => fatal "node_cast failed: expected CatchClause"
  termination_by 2 * sizeOf handler
  decreasing_by
    all_goals simp_wf
    all_goals try split
    all_goals omega

/-- A statement-sequence loop: `gen_stmt` on each element followed by the
loop's separator text (`""` for blocks and declaration lists, `";"` for
the module body and catch handlers, `";\n"` for function bodies). -/
def genSeq (sem : SemContext) (stmts : List Stmt) (sep : String) (scope : Nat) : GenM Unit :=
  match stmts with
  | [] => pure ()
  | s :: rest => do
      genStmt sem s scope
      emit sep
      genSeq sem rest sep scope
  termination_by 2 * sizeOf stmts
  decreasing_by
    all_goals simp_wf
    all_goals try split
    all_goals omega

/-- Translation of `Compiler::gen_stmt`. -/
def genStmt (sem : SemContext) (node : Stmt) (scope : Nat) : GenM Unit :=
  match node with
  | .blockStmt nodeId body => do
      emit "\x7b\n"
      let innerScope ← initScope sem nodeId scope
      genSeq sem body "" innerScope
      emit "\x7d\n"
  | .varDeclStmt declarations => genSeq sem declarations "" scope
  | .varDeclarator (some init) ident => do
      genExpr sem ident scope
      emit "="
      genExpr sem init scope
  | .varDeclarator none _ => pure ()
  | .funcDecl identOpt params body => do
      emit "("
      (match identOpt with
       | some ident => do
          genExpr sem ident scope
          emit "="
       | none => pure ())
      genFunctionExp sem params body scope
      emit ")"
  | .returnStmt argument => do
      emit "return "
      (match argument with
       | some e => genExpr sem e scope
       | none => emit "FNValue::encodeUndefined()")
      emit ";"
  | .exprStmt expression => do
      genExpr sem expression scope
      emit ";"
  | .whileStmt test body => do
      emit "while("
      genExpr sem test scope
      emit ".getBool())\x7b\n"
      genStmt sem body scope
      emit "\n\x7d"
  | .forStmt nodeId forInit test update body => do
      emit "\x7b"
      let innerScope ← initScope sem nodeId scope
      emit "for("
      genOptStmt sem forInit innerScope
      emit ";"
      genForTest sem test innerScope
      emit ";"
      genForUpdate sem update innerScope
      emit ")\x7b"
      genStmt sem body innerScope
      emit "\x7d"
      emit "\x7d"
  | .ifStmt test consequent alternate => do
      emit "if("
      genExpr sem test scope
      emit ".getBool())\x7b\n"
      genStmt sem consequent scope
      emit "\n\x7d\nelse\x7b\n"
      genOptStmt sem alternate scope
      emit "\n\x7d"
  | .tryStmt block handler => do
      emit "try \x7b"
      genStmt sem block scope
      emit "\x7d catch (FNValue ex)\x7b"
      genCatchHandler sem handler scope
  | .catchClause _ _ _ => fatal "Unimplemented statement: CatchClause"
  | .throwStmt argument => do
      emit "throw "
      genExpr sem argument scope
  | .otherStmt variant => fatal ("Unimplemented statement: " ++ variant)
  termination_by 2 * sizeOf node
  decreasing_by
    all_goals simp_wf
    all_goals try split
    all_goals omega


end

/-- Translation of `Compiler::gen_program`: runtime include, scope struct declarations
and definitions, `int main()` allocating the root scope record, the
top-level statements each followed by `;`, and the final return. -/
def genProgram (sem : SemContext) (node : Program) : GenM Unit := do
  emit "#include \"runtime/FNRuntime.h\"\n"
  genContext sem
  emit "int main()\x7b\n"
  match sem.nodeScope node.nodeId with
  | some scope => do
      emit ("Scope" ++ toString scope ++ " *scope" ++ toString scope
            ++ "=new Scope" ++ toString scope ++ "();\n")
      genSeq sem node.body ";" scope
      emit "return 0;\n\x7d"
  | none => fatal "unwrap of None: module has no scope"

/-- Translation of `Compiler::compile`: the whole pass over one program tree and its
semantic context. -/
def compile (ast : Program) (sem : SemContext) : GenM Unit :=
  genProgram sem ast

/-! ## Specification-side description of the Scope Emitter

A second definition of the scope-emission output, written from the spec's
words (§4.1): for every scope id in id order a forward declaration, and
only after all of them, for every scope id in id order a full definition —
parent-link field exactly when the scope has a parent, one value-typed
field per owned declaration initialised to Undefined, no scope merged or
elided.  The claim about the Scope Emitter is settled by proving
`gen_context` emits exactly this. -/

/-- One forward declaration per scope id, in id order (spec wording). -/
def specScopeForwardDecls (sem : SemContext) : String :=
  strConcat ((List.range sem.scopes.length).map
    (fun i => "struct Scope" ++ toString i ++ ";\n"))

/-- The full definition of one scope record type (spec wording): parent
link exactly when the scope has a parent, one default-initialised value
field per owned declaration. -/
def specScopeDefn (i : Nat) (sc : ScopeInfo) : String :=
  "struct Scope" ++ toString i ++ "\x7b\n"
  ++ (match sc.parentScope with
      | some parent => "Scope" ++ toString parent ++ " *parent;\n"
      | none => "")
  ++ strConcat (sc.decls.map
      (fun d => "FNValue var" ++ toString d ++ "=FNValue::encodeUndefined();\n"))
  ++ "\x7d;\n"

/-- One full definition per scope id, in id order, none merged or elided
(spec wording). -/
def specScopeDefns (sem : SemContext) : String :=
  strConcat (sem.scopes.enum.map (fun p => specScopeDefn p.1 p.2))

/-- Rust `str::is_ascii` (every byte at most 0x7f), the property asserted
by `Writer::write_ascii`'s `debug_assert!`. -/
def strIsAscii (s : String) : Bool :=
  s.toList.all (fun c => c.toNat ≤ 127)

/-! ## Concrete inputs used by witnesses and counterexamples -/

/-- A demonstration context: a root scope 0 (owning declaration 0) with a
child scope 1 at depth 1 (owning declaration 2); declaration 1 is a global
property.  Node 0 is the module (scope 0), nodes 5 and 7 carry scope 1,
node 6 carries no scope; identifier nodes 10/11/12 resolve to declarations
0/1/2, node 13 is unresolved, node 14 resolves to nothing usable. -/
def semDemo : SemContext :=
  ⟨[⟨none, [0], 0⟩, ⟨some 0, [2], 1⟩],
   [⟨.var, 0⟩, ⟨.globalProperty, 0⟩, ⟨.letDecl, 1⟩],
   fun n => if n = 0 then some 0 else if n = 5 then some 1 else
            if n = 7 then some 1 else none,
   fun n => if n = 10 then some (.decl 0) else if n = 11 then some (.decl 1) else
            if n = 12 then some (.decl 2) else
            if n = 14 then some .unresolvable else none⟩

/-- A module whose only statement reads an unresolved identifier. -/
def progUnresolved : Program := ⟨0, [.exprStmt (.identExpr 13 "x")]⟩

/-- A module whose only statement is a non-ASCII string literal. -/
def progNonAscii : Program := ⟨0, [.exprStmt (.strLit "é")]⟩

/-! ## Theorems -/

/-- Claim C3: for every scope forest with N scopes, `gen_context` emits,
in scope-id order, one forward declaration per scope record type, and only
after all N forward declarations, one full definition per scope record
type, also in id order; each definition has a parent-link field exactly
when the scope has a parent and one value-typed field per owned
declaration initialised to the Undefined value; no scope is merged or
elided even if it owns no declarations.  (`specScopeForwardDecls` /
`specScopeDefns` spell this out from the spec's words.) -/
theorem gen_context_emits_spec_scope_layout (sem : SemContext) :
    genContext sem = .ok (specScopeForwardDecls sem ++ specScopeDefns sem) () := by
  have h1 : forEach (List.range sem.scopes.length)
      (fun i => emit ("struct Scope" ++ toString i ++ ";\n")) =
      GenM.ok (specScopeForwardDecls sem) () :=
    forEach_emit_ok _ _ _ (fun a _ => rfl)
  have h2 : ∀ p : Nat × ScopeInfo,
      genScopeStruct p = GenM.ok (specScopeDefn p.1 p.2) () := by
    intro ⟨i, sc⟩
    cases hp : sc.parentScope <;>
      · simp [genScopeStruct, emit, hp, String.append_assoc]
        rw [forEach_emit_ok _ _
          (fun d => "FNValue var" ++ (toString d ++ "=FNValue::encodeUndefined();\n"))
          (fun a _ => rfl)]
        simp [specScopeDefn, hp, String.append_assoc, String.append_empty]
  have h3 : forEach sem.scopes.enum genScopeStruct =
      GenM.ok (strConcat (sem.scopes.enum.map (fun p => specScopeDefn p.1 p.2))) () :=
    forEach_emit_ok _ _ _ (fun p _ => h2 p)
  simp [genContext, h1, h3, specScopeDefns]

/-- The parent-dereference loop of `gen_expr`'s local-identifier arm emits
`"parent->"` exactly `d` times. -/
theorem forEach_parent_links (d : Nat) :
    forEach (List.range d) (fun _ => GenM.ok "parent->" ()) =
      GenM.ok (strConcat (List.replicate d "parent->")) () := by
  rw [forEach_emit_ok _ _ (fun _ => "parent->") (fun a _ => rfl)]
  simp [List.map_const']

/-- Claim C1: an identifier resolved to an ordinary-local declaration
owned by scope S, lowered at a site whose current scope is C, emits
exactly `depth(C) − depth(S)` parent-link dereferences, starting from the
current scope record and terminating at the declaration's storage slot,
and that count is a non-negative integer.  (The hypothesis
`depth(S) ≤ depth(C)` is the resolver's contract — an identifier is never
lowered from a site shallower than its declaration's scope; the machine
subtraction in `gen_expr` panics if this were violated.) -/
theorem ident_local_lowering_parent_chain (sem : SemContext) (n : Nat)
    (name : String) (siteScope declId : Nat)
    (hres : sem.identDecl n = some (.decl declId))
    (hkind1 : (sem.decl declId).kind ≠ .globalProperty)
    (hkind2 : (sem.decl declId).kind ≠ .undeclaredGlobalProperty)
    (hdepth : (sem.scope (sem.decl declId).scope).depth ≤ (sem.scope siteScope).depth) :
    genExpr sem (.identExpr n name) siteScope =
      .ok ("scope" ++ toString siteScope ++ "->"
           ++ strConcat (List.replicate
               ((sem.scope siteScope).depth - (sem.scope (sem.decl declId).scope).depth)
               "parent->")
           ++ "var" ++ toString declId) ()
    ∧ 0 ≤ ((sem.scope siteScope).depth : Int)
          - ((sem.scope (sem.decl declId).scope).depth : Int) := by
  refine ⟨?_, by omega⟩
  cases hk : (sem.decl declId).kind
  case globalProperty => exact absurd hk hkind1
  case undeclaredGlobalProperty => exact absurd hk hkind2
  all_goals
    simp [genExpr, hres, hk, hdepth, emit, forEach_parent_links,
      String.append_assoc, String.append_empty]

/-- Witness for the parent-chain lowering: declaration 0 lives in scope 0
(depth 0); a use-site in scope 1 (depth 1) dereferences one parent link. -/
theorem ident_local_lowering_parent_chain_witness :
    genExpr semDemo (.identExpr 10 "x") 1 = .ok "scope1->parent->var0" () := by
  have h := ident_local_lowering_parent_chain semDemo 10 "x" 1 0 rfl
    (by decide) (by decide) (by decide)
  exact h.1.trans (by decide)

/-- Claim C2: for a node carrying a fresh lexical scope, lowering emits on
entry an allocation of that scope's record with its parent-link field set
to the previously current scope, and everything lowered inside uses the
new instance; for a node with no attached scope the current scope is
passed through unchanged.  (`init_scope` implements the policy; the third
conjunct shows a block statement wiring it to its body.) -/
theorem scope_entry_instantiation (sem : SemContext) (nodeId scope : Nat)
    (body : List Stmt) :
    (∀ ns, sem.nodeScope nodeId = some ns →
       initScope sem nodeId scope =
         .ok (("Scope" ++ toString ns ++ " *scope" ++ toString ns
               ++ " = new Scope" ++ toString ns ++ "();\n")
              ++ ("scope" ++ toString ns ++ "->parent = scope"
                  ++ toString scope ++ ";\n")) ns)
    ∧ (sem.nodeScope nodeId = none → initScope sem nodeId scope = .ok "" scope)
    ∧ (∀ innerScope o₁ o₂,
         initScope sem nodeId scope = .ok o₁ innerScope →
         genSeq sem body "" innerScope = .ok o₂ () →
         genStmt sem (.blockStmt nodeId body) scope =
           .ok ("\x7b\n" ++ o₁ ++ o₂ ++ "\x7d\n") ()) := by
  refine ⟨?_, ?_, ?_⟩
  · intro ns h
    simp [initScope, h, emit, String.append_assoc, String.append_empty]
  · intro h
    simp [initScope, h]
  · intro innerScope o₁ o₂ h1 h2
    simp [genStmt, h1, h2, emit, String.append_assoc]

/-- Witness for scope instantiation: node 5 carries scope 1 (allocated,
parent-linked to scope 0, used inside the block); node 6 carries none
(current scope passed through). -/
theorem scope_entry_instantiation_witness :
    initScope semDemo 5 0 =
      .ok "Scope1 *scope1 = new Scope1();\nscope1->parent = scope0;\n" 1
    ∧ initScope semDemo 6 0 = .ok "" 0
    ∧ genStmt semDemo (.blockStmt 5 []) 0 =
        .ok "\x7b\nScope1 *scope1 = new Scope1();\nscope1->parent = scope0;\n\x7d\n" () := by
  have h5 := scope_entry_instantiation semDemo 5 0 []
  have h6 := scope_entry_instantiation semDemo 6 0 []
  have e1 : initScope semDemo 5 0 =
      .ok "Scope1 *scope1 = new Scope1();\nscope1->parent = scope0;\n" 1 :=
    (h5.1 1 rfl).trans (by decide)
  refine ⟨e1, h6.2.1 rfl, ?_⟩
  exact (h5.2.2 1 "Scope1 *scope1 = new Scope1();\nscope1->parent = scope0;\n" ""
    e1 (by simp [genSeq])).trans (by decide)

/-- Claim C4: an identifier resolved to a global-property or
undeclared-global-property declaration is lowered as a property access on
the process-wide global object keyed by the identifier's literal spelling
(never a scope-slot access); an identifier resolved to an ordinary-local
declaration is lowered as a scope-slot access (never a global-object
property access). -/
theorem ident_global_local_dichotomy (sem : SemContext) (n : Nat)
    (name : String) (siteScope declId : Nat)
    (hres : sem.identDecl n = some (.decl declId)) :
    ((sem.decl declId).kind = .globalProperty ∨
       (sem.decl declId).kind = .undeclaredGlobalProperty →
     genExpr sem (.identExpr n name) siteScope =
       .ok ("global()" ++ ("->props[\"" ++ name ++ "\"]")) ())
    ∧ ((sem.decl declId).kind ≠ .globalProperty →
       (sem.decl declId).kind ≠ .undeclaredGlobalProperty →
       (sem.scope (sem.decl declId).scope).depth ≤ (sem.scope siteScope).depth →
       genExpr sem (.identExpr n name) siteScope =
         .ok ("scope" ++ toString siteScope ++ "->"
              ++ strConcat (List.replicate
                  ((sem.scope siteScope).depth
                    - (sem.scope (sem.decl declId).scope).depth) "parent->")
              ++ "var" ++ toString declId) ()) := by
  constructor
  · rintro (hk | hk) <;>
      simp [genExpr, genMemberProp, hres, hk, emit,
        String.append_assoc, String.append_empty]
  · intro hkind1 hkind2 hdepth
    cases hk : (sem.decl declId).kind
    case globalProperty => exact absurd hk hkind1
    case undeclaredGlobalProperty => exact absurd hk hkind2
    all_goals
      simp [genExpr, hres, hk, hdepth, emit, forEach_parent_links,
        String.append_assoc, String.append_empty]

/-- Witness for the global/local dichotomy: declaration 1 is a global
property (access keyed by the spelling `g` on the global object);
declaration 2 is an ordinary local in scope 1 (a slot access). -/
theorem ident_global_local_dichotomy_witness :
    genExpr semDemo (.identExpr 11 "g") 0 = .ok "global()->props[\"g\"]" ()
    ∧ genExpr semDemo (.identExpr 12 "y") 1 = .ok "scope1->var2" () := by
  have hg := ident_global_local_dichotomy semDemo 11 "g" 0 1 rfl
  have hl := ident_global_local_dichotomy semDemo 12 "y" 1 2 rfl
  exact ⟨(hg.1 (Or.inl (by decide))).trans (by decide),
         (hl.2 (by decide) (by decide) (by decide)).trans (by decide)⟩

/-- Claim C5: a binary expression whose operator is in the
arithmetic/bitwise row of the lowering table unwraps both lowered operands
to numbers, applies the native operator, and re-encodes the result as
Number; one in the relational/equality row re-encodes as Boolean, with the
strict-equality variants mapped to the native `==` / `!=`; every binary
operator outside the table is a fatal lowering error (before any output
for the expression). -/
theorem binop_lowering_table (sem : SemContext) (op : BinOp) (l r : Expr)
    (scope : Nat) (oL oR : String)
    (hl : genExpr sem l scope = .ok oL ())
    (hr : genExpr sem r scope = .ok oR ()) :
    (op ∈ ([.lshift, .rshift, .plus, .minus, .mult, .div, .mod] : List BinOp) →
       genExpr sem (.binExpr op l r) scope =
         .ok ("FNValue::encodeNumber(" ++ oL ++ (".getNumber()" ++ binOpStr op)
              ++ oR ++ ".getNumber())") ())
    ∧ (op ∈ ([.looseEquals, .strictEquals, .strictNotEquals, .less, .lessEquals,
              .greater, .greaterEquals] : List BinOp) →
       genExpr sem (.binExpr op l r) scope =
         .ok ("FNValue::encodeBool(" ++ oL ++ (".getNumber()" ++ binOpStr op)
              ++ oR ++ ".getNumber())") ())
    ∧ (op ∉ ([.lshift, .rshift, .plus, .minus, .mult, .div, .mod,
              .looseEquals, .strictEquals, .strictNotEquals, .less, .lessEquals,
              .greater, .greaterEquals] : List BinOp) →
       genExpr sem (.binExpr op l r) scope = .err "" "Unsupported operator")
    ∧ binOpStr .strictEquals = "==" ∧ binOpStr .strictNotEquals = "!=" := by
  refine ⟨?_, ?_, ?_, rfl, rfl⟩
  · intro h
    fin_cases h <;>
      (simp [genExpr, hl, hr, binResType, binOpStr, BinOp.asStr, emit,
        String.append_empty] <;> simp [← String.append_assoc])
  · intro h
    fin_cases h <;>
      (simp [genExpr, hl, hr, binResType, binOpStr, BinOp.asStr, emit,
        String.append_empty] <;> simp [← String.append_assoc])
  · intro h
    cases op <;>
      first
        | exact absurd (by decide) h
        | simp [genExpr, binResType, fatal]

/-- Witness for the binary-operator table: `1+2` (Number row), `1<2`
(Boolean row), `1 instanceof 2` (outside the table, fatal). -/
theorem binop_lowering_table_witness :
    genExpr semDemo (.binExpr .plus (.numLit "1") (.numLit "2")) 0 =
      .ok "FNValue::encodeNumber(FNValue::encodeNumber(1).getNumber()+FNValue::encodeNumber(2).getNumber())" ()
    ∧ genExpr semDemo (.binExpr .less (.numLit "1") (.numLit "2")) 0 =
      .ok "FNValue::encodeBool(FNValue::encodeNumber(1).getNumber()<FNValue::encodeNumber(2).getNumber())" ()
    ∧ genExpr semDemo (.binExpr .instanceOf (.numLit "1") (.numLit "2")) 0 =
      .err "" "Unsupported operator" := by
  have h1 := binop_lowering_table semDemo .plus (.numLit "1") (.numLit "2") 0
    "FNValue::encodeNumber(1)" "FNValue::encodeNumber(2)"
    (by simp [genExpr, emit]) (by simp [genExpr, emit])
  have h2 := binop_lowering_table semDemo .less (.numLit "1") (.numLit "2") 0
    "FNValue::encodeNumber(1)" "FNValue::encodeNumber(2)"
    (by simp [genExpr, emit]) (by simp [genExpr, emit])
  have h3 := binop_lowering_table semDemo .instanceOf (.numLit "1") (.numLit "2") 0
    "FNValue::encodeNumber(1)" "FNValue::encodeNumber(2)"
    (by simp [genExpr, emit]) (by simp [genExpr, emit])
  exact ⟨(h1.1 (by decide)).trans (by decide),
         (h2.2.1 (by decide)).trans (by decide),
         h3.2.2.1 (by decide)⟩

/-- Claim C6: plain assignment emits a native assignment of the lowered
right-hand value into the lowered left-hand storage location; compound
arithmetic assignment (`+=`, `-=`, `%=`, `/=`, `*=`) additionally routes
both sides through the Number variant's by-reference accessor
(`.getNumberRef()`); any other compound assignment operator is a fatal
lowering error (before any output for the expression). -/
theorem assign_lowering_table (sem : SemContext) (op : AssignOp) (l r : Expr)
    (scope : Nat) (oL oR : String)
    (hl : genExpr sem l scope = .ok oL ())
    (hr : genExpr sem r scope = .ok oR ()) :
    (op = .assign →
       genExpr sem (.assignExpr op l r) scope = .ok (oL ++ "=" ++ oR) ())
    ∧ (op ∈ ([.plusAssign, .minusAssign, .modAssign, .divAssign,
              .multAssign] : List AssignOp) →
       genExpr sem (.assignExpr op l r) scope =
         .ok (oL ++ (".getNumberRef()" ++ op.asStr) ++ oR ++ ".getNumberRef()") ())
    ∧ (op ≠ .assign →
       op ∉ ([.plusAssign, .minusAssign, .modAssign, .divAssign,
              .multAssign] : List AssignOp) →
       genExpr sem (.assignExpr op l r) scope = .err "" "Unsupported assignment") := by
  refine ⟨?_, ?_, ?_⟩
  · rintro rfl
    simp [genExpr, hl, hr, assignTypeStr, AssignOp.asStr, emit,
      String.append_empty] <;> simp [← String.append_assoc]
  · intro h
    fin_cases h <;>
      (simp [genExpr, hl, hr, assignTypeStr, AssignOp.asStr, emit,
        String.append_empty] <;> simp [← String.append_assoc])
  · intro h1 h2
    cases op <;>
      first
        | exact absurd rfl h1
        | exact absurd (by decide) h2
        | simp [genExpr, assignTypeStr, fatal]

/-- Witness for the assignment table: `x = 1` (plain), `x += 1`
(by-reference compound), `x &= 1` (unsupported, fatal). -/
theorem assign_lowering_table_witness :
    genExpr semDemo (.assignExpr .assign (.identExpr 10 "x") (.numLit "1")) 0 =
      .ok "scope0->var0=FNValue::encodeNumber(1)" ()
    ∧ genExpr semDemo (.assignExpr .plusAssign (.identExpr 10 "x") (.numLit "1")) 0 =
      .ok "scope0->var0.getNumberRef()+=FNValue::encodeNumber(1).getNumberRef()" ()
    ∧ genExpr semDemo (.assignExpr .bitAndAssign (.identExpr 10 "x") (.numLit "1")) 0 =
      .err "" "Unsupported assignment" := by
  have hx : genExpr semDemo (.identExpr 10 "x") 0 = .ok "scope0->var0" () := by
    simp [genExpr, emit, semDemo, SemContext.identDecl, SemContext.decl,
      SemContext.scope, List.range]
    rfl
  have h1 := assign_lowering_table semDemo .assign (.identExpr 10 "x") (.numLit "1") 0
    "scope0->var0" "FNValue::encodeNumber(1)" hx (by simp [genExpr, emit])
  have h2 := assign_lowering_table semDemo .plusAssign (.identExpr 10 "x") (.numLit "1") 0
    "scope0->var0" "FNValue::encodeNumber(1)" hx (by simp [genExpr, emit])
  have h3 := assign_lowering_table semDemo .bitAndAssign (.identExpr 10 "x") (.numLit "1") 0
    "scope0->var0" "FNValue::encodeNumber(1)" hx (by simp [genExpr, emit])
  exact ⟨(h1.1 rfl).trans (by decide),
         (h2.2.1 (by decide)).trans (by decide),
         h3.2.2 (by decide) (by decide)⟩

/-- Claim C7 (amended): lowering an identifier with no usable Resolution
aborts the pass fatally at that identifier, emitting nothing for it — in
particular never a defaulted global-object lookup.  (Output emitted before
reaching the identifier — the runtime include, the scope definitions, the
entry-point prefix — has already been produced by then; see the
counterexample to the original "before producing any output" reading.) -/
theorem unresolved_identifier_fatal (sem : SemContext) (n : Nat)
    (name : String) (scope : Nat)
    (h : sem.identDecl n = none ∨ sem.identDecl n = some .unresolvable) :
    genExpr sem (.identExpr n name) scope = .err "" "Unresolved variable" := by
  rcases h with h | h <;> simp [genExpr, h, fatal]

/-- Witness: node 13 has no resolution; lowering it dies with the
`Unresolved variable` panic and emits nothing for it. -/
theorem unresolved_identifier_fatal_witness :
    genExpr semDemo (.identExpr 13 "x") 0 = .err "" "Unresolved variable" :=
  unresolved_identifier_fatal semDemo 13 "x" 0 (Or.inl rfl)

/-- Counterexample to claim C7 as stated: for a module whose only
statement reads an unresolved identifier, the pass does abort fatally and
never emits a lookup for the identifier, but the output produced before
the abort is not empty — the runtime include, both scope-struct sections
and the entry-point prefix have already been written when the panic
fires. -/
theorem unresolved_identifier_partial_output :
    compile progUnresolved semDemo =
      .err "#include \"runtime/FNRuntime.h\"\nstruct Scope0;\nstruct Scope1;\nstruct Scope0\x7b\nFNValue var0=FNValue::encodeUndefined();\n\x7d;\nstruct Scope1\x7b\nScope0 *parent;\nFNValue var2=FNValue::encodeUndefined();\n\x7d;\nint main()\x7b\nScope0 *scope0=new Scope0();\n"
        "Unresolved variable"
    ∧ ("#include \"runtime/FNRuntime.h\"\nstruct Scope0;\nstruct Scope1;\nstruct Scope0\x7b\nFNValue var0=FNValue::encodeUndefined();\n\x7d;\nstruct Scope1\x7b\nScope0 *parent;\nFNValue var2=FNValue::encodeUndefined();\n\x7d;\nint main()\x7b\nScope0 *scope0=new Scope0();\n" : String) ≠ "" := by
  constructor
  · simp [compile, progUnresolved, genProgram, genContext, genScopeStruct,
      genSeq, genStmt, genExpr, emit, fatal, semDemo,
      SemContext.nodeScope, SemContext.identDecl, SemContext.decl,
      SemContext.scope, List.range, List.range.loop, List.enum, List.enumFrom,
      strConcat]
    rfl
  · decide

set_option maxRecDepth 8000 in
/-- Claim C8 (the code violates it): lowering a string literal containing
the printable non-ASCII code point `é` emits the raw code point — Rust's
`{:?}` / `char::escape_debug` keeps printable characters verbatim whether
or not they are ASCII — so the emitted output stream is not pure ASCII,
contradicting `Writer::write_ascii`'s own `debug_assert!(buf.is_ascii(),
"Output must be ASCII")` and the spec's escaping requirement. -/
theorem nonascii_string_literal_not_escaped :
    compile progNonAscii semDemo =
      .ok "#include \"runtime/FNRuntime.h\"\nstruct Scope0;\nstruct Scope1;\nstruct Scope0\x7b\nFNValue var0=FNValue::encodeUndefined();\n\x7d;\nstruct Scope1\x7b\nScope0 *parent;\nFNValue var2=FNValue::encodeUndefined();\n\x7d;\nint main()\x7b\nScope0 *scope0=new Scope0();\nFNValue::encodeString(new FNString\x7b\"é\"\x7d);;return 0;\n\x7d" ()
    ∧ strIsAscii "#include \"runtime/FNRuntime.h\"\nstruct Scope0;\nstruct Scope1;\nstruct Scope0\x7b\nFNValue var0=FNValue::encodeUndefined();\n\x7d;\nstruct Scope1\x7b\nScope0 *parent;\nFNValue var2=FNValue::encodeUndefined();\n\x7d;\nint main()\x7b\nScope0 *scope0=new Scope0();\nFNValue::encodeString(new FNString\x7b\"é\"\x7d);;return 0;\n\x7d" = false
    ∧ strIsAscii (rustDebugString "é") = false := by
  refine ⟨?_, by decide, by decide⟩
  simp [compile, progNonAscii, genProgram, genContext, genScopeStruct,
    genSeq, genStmt, genExpr, emit, semDemo,
    SemContext.nodeScope, SemContext.identDecl, SemContext.decl,
    SemContext.scope, List.range, List.range.loop, List.enum, List.enumFrom,
    strConcat]
  rfl

/-- Claim C9: a `for` statement with an attached lexical scope allocates
that scope's record exactly once, before the emitted native `for` loop
(so its declarations persist across iterations); the lowered init, test
and update clauses sit in the three native `for`-header positions (the
optional-clause helpers emit nothing for an absent clause), and the body
is lowered against the loop's scope. -/
theorem for_statement_lowering (sem : SemContext) (nodeId ns : Nat)
    (forInit : Option Stmt) (test update : Option Expr) (body : Stmt)
    (scope : Nat) (o₁ o₂ o₃ o₄ : String)
    (hscope : sem.nodeScope nodeId = some ns)
    (hinit : genOptStmt sem forInit ns = .ok o₁ ())
    (htest : genForTest sem test ns = .ok o₂ ())
    (hupd : genForUpdate sem update ns = .ok o₃ ())
    (hbody : genStmt sem body ns = .ok o₄ ()) :
    genStmt sem (.forStmt nodeId forInit test update body) scope =
      .ok ("\x7b"
           ++ ("Scope" ++ toString ns ++ " *scope" ++ toString ns
               ++ " = new Scope" ++ toString ns ++ "();\n")
           ++ ("scope" ++ toString ns ++ "->parent = scope"
               ++ toString scope ++ ";\n")
           ++ "for(" ++ o₁ ++ ";" ++ o₂ ++ ";" ++ o₃ ++ ")\x7b"
           ++ o₄ ++ "\x7d\x7d") () := by
  simp [genStmt, initScope, hscope, hinit, htest, hupd, hbody, emit,
    String.append_empty] <;> simp [← String.append_assoc]

/-- Witness: a `for` with scope 1 attached, no init, test `true`, no
update, body `return;` — the scope-record allocation appears once, before
the `for` header. -/
theorem for_statement_lowering_witness :
    genStmt semDemo (.forStmt 7 none (some (.boolLit true)) none (.returnStmt none)) 0 =
      .ok "\x7bScope1 *scope1 = new Scope1();\nscope1->parent = scope0;\nfor(;FNValue::encodeBool(true).getBool();)\x7breturn FNValue::encodeUndefined();\x7d\x7d" () := by
  have h := for_statement_lowering semDemo 7 1 none (some (.boolLit true)) none
    (.returnStmt none) 0 "" "FNValue::encodeBool(true).getBool()" ""
    "return FNValue::encodeUndefined();"
    rfl (by simp [genOptStmt]) (by simp [genForTest, genExpr, emit])
    (by simp [genForUpdate]) (by simp [genStmt, emit])
  exact h.trans (by decide)

/-- Claim C10: compilation is deterministic — two runs of the pass over
the same program tree and the same semantic context produce byte-for-byte
identical output (the embedding of `Compiler::compile` is a pure function
of the tree and the context alone; no clock, randomness or ambient state
occurs in it). -/
theorem compile_deterministic (ast : Program) (sem : SemContext)
    (r₁ r₂ : GenM Unit)
    (h₁ : r₁ = compile ast sem) (h₂ : r₂ = compile ast sem) : r₁ = r₂ :=
  h₁.trans h₂.symm

/-- Witness: two runs on the empty module agree. -/
theorem compile_deterministic_witness :
    compile ⟨0, []⟩ semDemo = compile ⟨0, []⟩ semDemo :=
  compile_deterministic ⟨0, []⟩ semDemo _ _ rfl rfl

end FlowNative

